import Mathlib

/-!
Shallow embedding of the dnsbalancer repository: the backend health-state
machine, forwarder and health prober (src/backend/backend.go) and the
round-robin selector / query handler of the load balancer (src/lb).
Network effects are modelled by explicit outcome oracles passed as
arguments; the timestamp fields (LastCheck, LastFail) are advisory only
and omitted, and the per-backend mutex is irrelevant to the sequential
claims proved here.
-/

namespace DnsBalancer

/-- Mirrors the `Backend` struct of backend.go.  Counters are modelled as
`Nat`: the Go fields are `int` / `uint64` and no claim here concerns their
overflow.  The two `time.Time` fields and the mutex are omitted. -/
structure Backend where
  Address : String
  Healthy : Bool
  ConsecutiveFails : Nat
  ConsecutiveSuccess : Nat
  TotalQueries : Nat
  TotalFailures : Nat
  deriving DecidableEq

/-- `NewBackend` of backend.go: only the address is set, `Healthy` starts
`true` ("Start optimistic"), every other field is the Go zero value. -/
def NewBackend (address : String) : Backend :=
  { Address := address
    Healthy := true
    ConsecutiveFails := 0
    ConsecutiveSuccess := 0
    TotalQueries := 0
    TotalFailures := 0 }

/-- `IsHealthy` of backend.go. -/
def IsHealthy (b : Backend) : Bool :=
  b.Healthy

/-- `MarkQueryAttempt` of backend.go: increments `TotalQueries`. -/
def MarkQueryAttempt (b : Backend) : Backend :=
  { b with TotalQueries := b.TotalQueries + 1 }

/-- `MarkFailure` of backend.go: increments `TotalFailures` (the
`LastFail` timestamp update is omitted). -/
def MarkFailure (b : Backend) : Backend :=
  { b with TotalFailures := b.TotalFailures + 1 }

/-- `RecordHealthCheck` of backend.go lines 81-109: on success increment
`ConsecutiveSuccess`, zero `ConsecutiveFails`, and flip `Healthy` to true
when the backend was unhealthy and the success threshold is met; on
failure the mirror image.  Returns the updated backend together with the
Go return values `(healthChanged, b.Healthy)`. -/
def RecordHealthCheck (b : Backend) (success : Bool)
    (failThreshold successThreshold : Nat) : Backend × Bool × Bool :=
  match success with
  | true =>
    let b1 := { b with ConsecutiveSuccess := b.ConsecutiveSuccess + 1
                       ConsecutiveFails := 0 }
    if b1.Healthy = false ∧ successThreshold ≤ b1.ConsecutiveSuccess then
      ({ b1 with Healthy := true }, true, true)
    else
      (b1, false, b1.Healthy)
  | false =>
    let b1 := { b with ConsecutiveFails := b.ConsecutiveFails + 1
                       ConsecutiveSuccess := 0 }
    if b1.Healthy = true ∧ failThreshold ≤ b1.ConsecutiveFails then
      ({ b1 with Healthy := false }, true, false)
    else
      (b1, false, b1.Healthy)

/-- A sequence of health-check outcomes applied in order, as the health
monitor does, threading the backend state. -/
def runHealthChecks (ft st : Nat) (outcomes : List Bool) (b : Backend) :
    Backend :=
  outcomes.foldl (fun b o => (RecordHealthCheck b o ft st).1) b

theorem runHealthChecks_nil (ft st : Nat) (b : Backend) :
    runHealthChecks ft st [] b = b := rfl

theorem runHealthChecks_cons (ft st : Nat) (o : Bool) (l : List Bool)
    (b : Backend) :
    runHealthChecks ft st (o :: l) b =
      runHealthChecks ft st l (RecordHealthCheck b o ft st).1 := rfl

theorem runHealthChecks_append (ft st : Nat) (l₁ l₂ : List Bool)
    (b : Backend) :
    runHealthChecks ft st (l₁ ++ l₂) b =
      runHealthChecks ft st l₂ (runHealthChecks ft st l₁ b) :=
  List.foldl_append _ _ _ _

/-! Helper lemmas about single `RecordHealthCheck` steps. -/

theorem recordHealthCheck_fail_cf (b : Backend) (ft st : Nat) :
    ((RecordHealthCheck b false ft st).1).ConsecutiveFails =
      b.ConsecutiveFails + 1 := by
  simp only [RecordHealthCheck]
  split <;> rfl

theorem recordHealthCheck_fail_cs (b : Backend) (ft st : Nat) :
    ((RecordHealthCheck b false ft st).1).ConsecutiveSuccess = 0 := by
  simp only [RecordHealthCheck]
  split <;> rfl

theorem recordHealthCheck_fail_healthy (b : Backend) (ft st : Nat) :
    ((RecordHealthCheck b false ft st).1).Healthy = true →
      b.ConsecutiveFails + 1 < ft := by
  simp only [RecordHealthCheck]
  split
  · intro hc
    exact absurd hc (by simp)
  · rename_i h
    intro hc
    by_contra hcon
    exact h ⟨hc, by omega⟩

theorem recordHealthCheck_success_healthy_low (b : Backend) (ft st : Nat)
    (hb : b.Healthy = false) (hcs : b.ConsecutiveSuccess = 0)
    (hst : 2 ≤ st) :
    ((RecordHealthCheck b true ft st).1).Healthy = false := by
  simp only [RecordHealthCheck]
  split
  · rename_i h
    exfalso
    rcases h with ⟨-, hle⟩
    rw [hcs] at hle
    omega
  · exact hb

theorem runHealthChecks_replicate_false_cf (ft st : Nat) :
    ∀ (k : Nat) (b : Backend),
      (runHealthChecks ft st (List.replicate k false) b).ConsecutiveFails =
        b.ConsecutiveFails + k := by
  intro k
  induction k with
  | zero => intro b; rfl
  | succ k ih =>
    intro b
    rw [List.replicate_succ, runHealthChecks_cons, ih,
      recordHealthCheck_fail_cf]
    omega

theorem runHealthChecks_replicate_false_state (ft st : Nat) (k : Nat)
    (b : Backend) (hk : 1 ≤ k) (hft : k = ft) :
    (runHealthChecks ft st (List.replicate k false) b).Healthy = false ∧
      (runHealthChecks ft st (List.replicate k false) b).ConsecutiveSuccess
        = 0 := by
  obtain ⟨j, rfl⟩ : ∃ j, k = j + 1 := ⟨k - 1, by omega⟩
  rw [List.replicate_succ', runHealthChecks_append]
  set b1 := runHealthChecks ft st (List.replicate j false) b with hb1
  have hcs : (runHealthChecks ft st [false] b1).ConsecutiveSuccess = 0 := by
    rw [runHealthChecks_cons, runHealthChecks_nil]
    exact recordHealthCheck_fail_cs b1 ft st
  refine ⟨?_, hcs⟩
  by_contra hhe
  have hh : (runHealthChecks ft st [false] b1).Healthy = true := by
    cases hcase : (runHealthChecks ft st [false] b1).Healthy
    · exact absurd hcase hhe
    · rfl
  rw [runHealthChecks_cons, runHealthChecks_nil] at hh
  have hlt := recordHealthCheck_fail_healthy b1 ft st hh
  have hcf : b1.ConsecutiveFails = b.ConsecutiveFails + j := by
    rw [hb1, runHealthChecks_replicate_false_cf]
  omega

/-- Claim C5: the `changed` flag returned by `RecordHealthCheck` is true
exactly at the calls where the `Healthy` flag flips (hence at most once
per transition), the second return value always equals the backend's
health after the call, and repeating the outcome that matches the current
health state always reports `changed = false`. -/
theorem recordHealthCheck_changed_iff_flip (b : Backend) (o : Bool)
    (ft st : Nat) :
    ((RecordHealthCheck b o ft st).2.1 = true ↔
        (RecordHealthCheck b o ft st).1.Healthy ≠ b.Healthy) ∧
      (RecordHealthCheck b o ft st).2.2 =
        (RecordHealthCheck b o ft st).1.Healthy ∧
      (RecordHealthCheck { b with Healthy := true } true ft st).2.1
        = false ∧
      (RecordHealthCheck { b with Healthy := false } false ft st).2.1
        = false := by
  refine ⟨?_, ?_, ?_, ?_⟩
  · cases o <;>
      (simp only [RecordHealthCheck]; split <;> simp_all)
  · cases o <;>
      (simp only [RecordHealthCheck]; split <;> simp_all)
  · simp only [RecordHealthCheck]
    split
    · rename_i h
      exact absurd h (by simp)
    · rfl
  · simp only [RecordHealthCheck]
    split
    · rename_i h
      exact absurd h (by simp)
    · rfl

/-- Claim C10: starting from a freshly created backend (both consecutive
counters zero), after any sequence of health-check recordings at least one
of `ConsecutiveFails`, `ConsecutiveSuccess` is zero: each recording that
increments one counter zeroes the other. -/
theorem consecutive_counters_exclusive (ft st : Nat) (a : String)
    (outs : List Bool) :
    (runHealthChecks ft st outs (NewBackend a)).ConsecutiveFails = 0 ∨
      (runHealthChecks ft st outs (NewBackend a)).ConsecutiveSuccess = 0 := by
  have step : ∀ (b : Backend) (o : Bool),
      (RecordHealthCheck b o ft st).1.ConsecutiveFails = 0 ∨
        (RecordHealthCheck b o ft st).1.ConsecutiveSuccess = 0 := by
    intro b o
    cases o <;> (simp only [RecordHealthCheck]; split <;> simp)
  have main : ∀ (l : List Bool) (b : Backend),
      (b.ConsecutiveFails = 0 ∨ b.ConsecutiveSuccess = 0) →
        ((runHealthChecks ft st l b).ConsecutiveFails = 0 ∨
          (runHealthChecks ft st l b).ConsecutiveSuccess = 0) := by
    intro l
    induction l with
    | nil => intro b hb; exact hb
    | cons o l ih =>
      intro b _
      rw [runHealthChecks_cons]
      exact ih _ (step b o)
  exact main outs (NewBackend a) (Or.inl rfl)

/-- Claim C1: the `Healthy` flag flips false→true only at a recording
where the consecutive-success count has reached the success threshold and
true→false only where the consecutive-failure count has reached the
failure threshold (so at every other recording it is unchanged), and in
particular after `failThreshold` consecutive failures one single success
does not restore health when the success threshold is at least two. -/
theorem recordHealthCheck_hysteresis (ft st : Nat) (b : Backend)
    (o : Bool) :
    (b.Healthy = false → (RecordHealthCheck b o ft st).1.Healthy = true →
        o = true ∧ st ≤ (RecordHealthCheck b o ft st).1.ConsecutiveSuccess) ∧
      (b.Healthy = true → (RecordHealthCheck b o ft st).1.Healthy = false →
        o = false ∧ ft ≤ (RecordHealthCheck b o ft st).1.ConsecutiveFails) ∧
      (1 ≤ ft → 2 ≤ st →
        (runHealthChecks ft st (List.replicate ft false ++ [true])
            b).Healthy = false) := by
  refine ⟨?_, ?_, ?_⟩
  · intro hb hup
    cases o
    · exfalso
      simp only [RecordHealthCheck] at hup
      split at hup <;> simp_all
    · refine ⟨rfl, ?_⟩
      simp only [RecordHealthCheck] at hup ⊢
      split at hup
      · rename_i h
        rw [if_pos h]
        exact h.2
      · simp_all
  · intro hb hdown
    cases o
    · refine ⟨rfl, ?_⟩
      simp only [RecordHealthCheck] at hdown ⊢
      split at hdown
      · rename_i h
        rw [if_pos h]
        exact h.2
      · simp_all
    · exfalso
      simp only [RecordHealthCheck] at hdown
      split at hdown <;> simp_all
  · intro hft hst
    rw [runHealthChecks_append]
    set bf := runHealthChecks ft st (List.replicate ft false) b with hbf
    obtain ⟨hh, hcs⟩ :=
      runHealthChecks_replicate_false_state ft st ft b hft rfl
    rw [runHealthChecks_cons, runHealthChecks_nil]
    exact recordHealthCheck_success_healthy_low bf ft st hh hcs hst

/-- Witness for C1 at `failThreshold = 3`, `successThreshold = 2`: three
failed probes followed by one successful probe leave the backend
unhealthy. -/
theorem recordHealthCheck_hysteresis_witness :
    1 ≤ 3 ∧ 2 ≤ 2 ∧
      (runHealthChecks 3 2 (List.replicate 3 false ++ [true])
          (NewBackend "b1")).Healthy = false :=
  ⟨by decide, by decide,
    (recordHealthCheck_hysteresis 3 2 (NewBackend "b1") true).2.2
      (by decide) (by decide)⟩

/-! Forwarder (`ForwardQuery` of backend.go lines 129-160).  The network
is modelled by an outcome oracle naming which step of the single attempt
fails, or the reply bytes read on success. -/

/-- Outcome of the network interaction of one `ForwardQuery` call: the
dial, set-deadline, write or read step fails (a timeout surfaces as a
read error), or a reply datagram is read. -/
inductive NetOutcome where
  | dialErr : NetOutcome
  | deadlineErr : NetOutcome
  | writeErr : NetOutcome
  | readErr : NetOutcome
  | reply : List Nat → NetOutcome
  deriving DecidableEq

/-- `ForwardQuery` of backend.go: `MarkQueryAttempt` first regardless of
outcome; each failing step calls `MarkFailure` and returns the error
(modelled as `none`) with no retry; on success the reply bytes are
returned and `TotalFailures` is untouched. -/
def ForwardQuery (b : Backend) (net : NetOutcome) :
    Backend × Option (List Nat) :=
  let b1 := MarkQueryAttempt b
  match net with
  | NetOutcome.dialErr => (MarkFailure b1, none)
  | NetOutcome.deadlineErr => (MarkFailure b1, none)
  | NetOutcome.writeErr => (MarkFailure b1, none)
  | NetOutcome.readErr => (MarkFailure b1, none)
  | NetOutcome.reply bytes => (b1, some bytes)

/-- A sequence of forwards against one backend, threading its state. -/
def runForwards (nets : List NetOutcome) (b : Backend) : Backend :=
  nets.foldl (fun b n => (ForwardQuery b n).1) b

theorem forwardQuery_totalQueries (b : Backend) (net : NetOutcome) :
    (ForwardQuery b net).1.TotalQueries = b.TotalQueries + 1 := by
  cases net <;> rfl

/-- Claim C7: every `ForwardQuery` call increments `TotalQueries` by
exactly one regardless of outcome; a failing connect/deadline/write/read
step additionally increments `TotalFailures` by exactly one and yields an
error (no reply, single attempt), while a successful call leaves
`TotalFailures` unchanged and returns the reply bytes. -/
theorem forwardQuery_counters (b : Backend) (net : NetOutcome) :
    (ForwardQuery b net).1.TotalQueries = b.TotalQueries + 1 ∧
      (ForwardQuery b net).1.TotalFailures =
        b.TotalFailures +
          (match net with | NetOutcome.reply _ => 0 | _ => 1) ∧
      (ForwardQuery b net).2 =
        (match net with
          | NetOutcome.reply bytes => some bytes
          | _ => none) := by
  cases net <;>
    simp [ForwardQuery, MarkQueryAttempt, MarkFailure]

/-- Claim C9: a newly created backend is healthy, and none of the
forwarding-path operations (`ForwardQuery`, `MarkQueryAttempt`,
`MarkFailure`) touches the `Healthy` flag; hence with health checking
disabled a backend stays healthy — and so selectable — after any sequence
of forwards, however many fail. -/
theorem forwarding_preserves_healthy (a : String) (b : Backend)
    (net : NetOutcome) (nets : List NetOutcome) :
    (NewBackend a).Healthy = true ∧
      (MarkQueryAttempt b).Healthy = b.Healthy ∧
      (MarkFailure b).Healthy = b.Healthy ∧
      (ForwardQuery b net).1.Healthy = b.Healthy ∧
      (runForwards nets (NewBackend a)).Healthy = true := by
  have hstep : ∀ (c : Backend) (n : NetOutcome),
      (ForwardQuery c n).1.Healthy = c.Healthy := by
    intro c n
    cases n <;> rfl
  have hrun : ∀ (l : List NetOutcome) (c : Backend),
      (runForwards l c).Healthy = c.Healthy := by
    intro l
    induction l with
    | nil => intro c; rfl
    | cons n l ih =>
      intro c
      show (runForwards l (ForwardQuery c n).1).Healthy = c.Healthy
      rw [ih, hstep]
  exact ⟨rfl, rfl, rfl, hstep b net, hrun nets (NewBackend a)⟩

/-! Health prober (`HealthCheck` of backend.go lines 163-224). -/

/-- The reply datagram of a probe: either `Unpack` rejects it, or it
parses with some response code. -/
inductive ProbeReply where
  | invalid : ProbeReply
  | parsed : Nat → ProbeReply
  deriving DecidableEq

/-- Outcome of the network interaction of one `HealthCheck` call,
mirroring the sequence of fallible steps in the source: packing the
query, dialing, setting the deadline, writing, reading (a reply that
misses the deadline surfaces as a read error), then the reply itself. -/
inductive ProbeNet where
  | packErr : ProbeNet
  | dialErr : ProbeNet
  | deadlineErr : ProbeNet
  | writeErr : ProbeNet
  | readErr : ProbeNet
  | reply : ProbeReply → ProbeNet
  deriving DecidableEq

def RcodeSuccess : Nat := 0

def RcodeNameError : Nat := 3

/-- The `switch queryType` of `HealthCheck`, mapping the configured query
type string to a DNS type code (default `TypeNS`). -/
def queryTypeCode (queryType : String) : Nat :=
  if queryType = "A" then 1
  else if queryType = "AAAA" then 28
  else if queryType = "NS" then 2
  else if queryType = "ANY" then 255
  else 2

/-- `HealthCheck` of backend.go: each fallible step returns its error;
an unparseable reply returns "invalid DNS response"; a parsed reply whose
rcode is neither `RcodeSuccess` nor `RcodeNameError` returns "DNS error
response"; otherwise the probe reports `none` (the Go `nil` error). -/
def HealthCheck (queryName queryType : String) (net : ProbeNet) :
    Option String :=
  match net with
  | ProbeNet.packErr => some "failed to pack DNS query"
  | ProbeNet.dialErr => some "failed to connect"
  | ProbeNet.deadlineErr => some "failed to set deadline"
  | ProbeNet.writeErr => some "failed to send query"
  | ProbeNet.readErr => some "failed to read response"
  | ProbeNet.reply ProbeReply.invalid => some "invalid DNS response"
  | ProbeNet.reply (ProbeReply.parsed rcode) =>
    if rcode ≠ RcodeSuccess ∧ rcode ≠ RcodeNameError then
      some "DNS error response"
    else
      none

/-- Claim C8: the probe reports success (a `nil` error) exactly when a
reply was read before the deadline, parsed as a valid DNS message, and
carried response code `RcodeSuccess` or `RcodeNameError` (NXDOMAIN);
every other response code, unparseable reply, or pack/connect/deadline/
write/read error is a failure. -/
theorem healthCheck_ok_iff (queryName queryType : String)
    (net : ProbeNet) :
    HealthCheck queryName queryType net = none ↔
      ∃ rcode, net = ProbeNet.reply (ProbeReply.parsed rcode) ∧
        (rcode = RcodeSuccess ∨ rcode = RcodeNameError) := by
  cases net with
  | reply r =>
    cases r with
    | invalid => simp [HealthCheck]
    | parsed rcode =>
      constructor
      · intro h
        refine ⟨rcode, rfl, ?_⟩
        simp only [HealthCheck] at h
        by_contra hcon
        rw [if_pos ⟨fun he => hcon (Or.inl he),
          fun he => hcon (Or.inr he)⟩] at h
        exact Option.noConfusion h
      · rintro ⟨rc, heq, hrc⟩
        obtain rfl : rcode = rc := by
          injection heq with h1
          injection h1
        simp only [HealthCheck]
        rcases hrc with h | h <;> simp [h, RcodeSuccess, RcodeNameError]
  | packErr => simp [HealthCheck]
  | dialErr => simp [HealthCheck]
  | deadlineErr => simp [HealthCheck]
  | writeErr => simp [HealthCheck]
  | readErr => simp [HealthCheck]

/-! Selector (`selectBackend` of lb/loadbalancer.go lines 205-223).  The
shared `uint32` cursor is modelled as a `Nat` reduced modulo `2^32` at
each `atomic.AddUint32`, which returns the incremented value.  The
backend count is well below `2^32`, so `uint32(len(backends))` is the
length itself. -/

def uint32Mod : Nat := 4294967296

/-- Health of the backend at index `i`, as read by the selector loop
(`lb.backends[idx].IsHealthy()`); out-of-range reads never occur in the
source and are mapped to `false`. -/
def healthyAt (bs : List Backend) (i : Nat) : Bool :=
  ((bs.get? i).map Backend.Healthy).getD false

/-- The `for i := 0; i < maxAttempts; i++` loop of `selectBackend`:
advance the cursor by one (wrapping at `2^32`), probe the backend at the
cursor modulo the backend count, return its index if healthy, else
repeat.  Returns the selected index (or `none`) and the final cursor. -/
def selectLoop (bs : List Backend) : Nat → Nat → Option Nat × Nat
  | cursor, 0 => (none, cursor)
  | cursor, k + 1 =>
    let c1 := (cursor + 1) % uint32Mod
    let idx := c1 % bs.length
    if healthyAt bs idx then (some idx, c1) else selectLoop bs c1 k

/-- `selectBackend`: empty backend list short-circuits to `none`;
otherwise run the loop for `maxAttempts = len(backends)` attempts. -/
def selectBackend (bs : List Backend) (cursor : Nat) : Option Nat × Nat :=
  if bs.length = 0 then (none, cursor) else selectLoop bs cursor bs.length

/-- The sequence of indices the loop probes in `k` attempts starting
from cursor `c` with `n` backends: successive incremented cursor values,
wrapped at `2^32`, reduced modulo `n`. -/
def probeSeq (c n k : Nat) : List Nat :=
  (List.range k).map (fun i => ((c + i + 1) % uint32Mod) % n)

/-- `k` consecutive `selectBackend` calls threading the shared cursor,
listing the selected index of each call (the backend list is fixed: the
selector never mutates backend state). -/
def selectSeq (bs : List Backend) : Nat → Nat → List (Option Nat)
  | _, 0 => []
  | c, k + 1 =>
    (selectBackend bs c).1 :: selectSeq bs (selectBackend bs c).2 k

theorem probeSeq_succ (c n k : Nat) :
    probeSeq c n (k + 1) =
      (((c + 1) % uint32Mod) % n) :: probeSeq ((c + 1) % uint32Mod) n k := by
  unfold probeSeq
  rw [List.range_succ_eq_map, List.map_cons, List.map_map]
  refine congrArg₂ _ (by simp) ?_
  apply List.map_congr
  intro i _
  show ((c + (i + 1) + 1) % uint32Mod) % n =
    (((c + 1) % uint32Mod + i + 1) % uint32Mod) % n
  have h1 : ((c + 1) % uint32Mod + i + 1) % uint32Mod =
      (c + (i + 1) + 1) % uint32Mod := by
    rw [Nat.add_assoc ((c + 1) % uint32Mod) i 1, Nat.mod_add_mod]
    exact congrArg (fun x => x % uint32Mod) (by omega)
  rw [h1]

theorem selectLoop_fst (bs : List Backend) (k : Nat) :
    ∀ c, (selectLoop bs c k).1 =
      (probeSeq c bs.length k).find? (fun i => healthyAt bs i) := by
  induction k with
  | zero => intro c; rfl
  | succ k ih =>
    intro c
    rw [probeSeq_succ]
    show (if healthyAt bs (((c + 1) % uint32Mod) % bs.length)
        then (some (((c + 1) % uint32Mod) % bs.length), (c + 1) % uint32Mod)
        else selectLoop bs ((c + 1) % uint32Mod) k).1 = _
    by_cases h : healthyAt bs (((c + 1) % uint32Mod) % bs.length) = true
    · rw [if_pos h, List.find?_cons_of_pos _ h]
    · rw [if_neg (by simp [h]), List.find?_cons_of_neg _ (by simp [h])]
      exact ih ((c + 1) % uint32Mod)

theorem healthyAt_eq_true (bs : List Backend) (i : Nat)
    (hi : i < bs.length) :
    healthyAt bs i = (bs.get ⟨i, hi⟩).Healthy := by
  unfold healthyAt
  rw [List.get?_eq_get hi]
  rfl

theorem mod_shift_hits (n r j : Nat) (hr : r < n) (hj : j < n) :
    ∃ i, i < n ∧ (r + i) % n = j := by
  rcases le_or_lt r j with h | h
  · refine ⟨j - r, by omega, ?_⟩
    have : r + (j - r) = j := by omega
    rw [this]
    exact Nat.mod_eq_of_lt hj
  · refine ⟨j + n - r, by omega, ?_⟩
    have : r + (j + n - r) = j + n := by omega
    rw [this, Nat.add_mod_right]
    exact Nat.mod_eq_of_lt hj

theorem probeSeq_nowrap (c n : Nat) (hc : c + n < uint32Mod) :
    probeSeq c n n = (List.range n).map (fun i => (c + i + 1) % n) := by
  unfold probeSeq
  apply List.map_congr
  intro i hi
  have hlt : c + i + 1 < uint32Mod := by
    have := List.mem_range.mp hi
    omega
  rw [Nat.mod_eq_of_lt hlt]

theorem probeSeq_complete (c n j : Nat) (hn : 0 < n) (hj : j < n)
    (hc : c + n < uint32Mod) : j ∈ probeSeq c n n := by
  rw [probeSeq_nowrap c n hc]
  have hr : (c + 1) % n < n := Nat.mod_lt _ hn
  obtain ⟨i, hi, hmod⟩ := mod_shift_hits n ((c + 1) % n) j hr hj
  refine List.mem_map.mpr ⟨i, List.mem_range.mpr hi, ?_⟩
  show (c + i + 1) % n = j
  calc (c + i + 1) % n = ((c + 1) + i) % n := by
        exact congrArg (fun x => x % n) (by omega)
    _ = ((c + 1) % n + i) % n := by rw [Nat.mod_add_mod]
    _ = j := hmod

/-! Concrete fixtures for witnesses and counterexamples. -/

def unhealthyBackend (a : String) : Backend :=
  { NewBackend a with Healthy := false }

/-- Two freshly created (healthy) backends, health checking disabled. -/
def twoHealthy : List Backend :=
  [NewBackend "b1", NewBackend "b2"]

def oneUnhealthy : List Backend :=
  [unhealthyBackend "u0"]

/-- Three backends of which only the last is healthy, used at a cursor
just below the `uint32` wrap boundary. -/
def wrapBackends : List Backend :=
  [unhealthyBackend "u1", unhealthyBackend "u2", NewBackend "h3"]

/-- Counterexample to claim C2 as stated: with the cursor at
`2^32 - 2` and three backends of which the third is healthy, the three
probes hit indices 0, 0, 1 (the `uint32` wrap skews the modulus), so
`selectBackend` returns `none` although a healthy backend exists. -/
theorem select_misses_healthy_at_wrap :
    (selectBackend wrapBackends 4294967294).1 = none ∧
      ¬ (∀ b ∈ wrapBackends, b.Healthy = false) := by
  constructor
  · decide
  · decide

/-- Claim C2 amended: `selectBackend` returns `none` whenever every
backend is unhealthy (any cursor); any returned index denotes a healthy
backend; and conversely, provided the call's cursor increments do not
cross the `uint32` wrap boundary (`cursor + len(backends) < 2^32`),
`none` is returned only when every backend is unhealthy.  At the wrap
boundary the converse can fail (see the counterexample). -/
theorem select_none_iff_all_unhealthy (bs : List Backend) (c : Nat) :
    ((∀ b ∈ bs, b.Healthy = false) → (selectBackend bs c).1 = none) ∧
      (∀ idx, (selectBackend bs c).1 = some idx →
        ∃ h : idx < bs.length, (bs.get ⟨idx, h⟩).Healthy = true) ∧
      (c + bs.length < uint32Mod → (selectBackend bs c).1 = none →
        ∀ b ∈ bs, b.Healthy = false) := by
  refine ⟨?_, ?_, ?_⟩
  · intro hall
    unfold selectBackend
    by_cases hlen : bs.length = 0
    · rw [if_pos hlen]
    · rw [if_neg hlen, selectLoop_fst]
      apply List.find?_eq_none.mpr
      intro x _
      have hfalse : healthyAt bs x = false := by
        unfold healthyAt
        cases hget : bs.get? x with
        | none => rfl
        | some b =>
          have hb := hall b (List.get?_mem hget)
          simp [hb]
      simp [hfalse]
  · intro idx hsel
    unfold selectBackend at hsel
    by_cases hlen : bs.length = 0
    · rw [if_pos hlen] at hsel
      exact absurd hsel (by simp)
    · rw [if_neg hlen, selectLoop_fst] at hsel
      have hp := List.find?_some hsel
      have hmem := List.mem_of_find?_eq_some hsel
      simp only [probeSeq, List.mem_map, List.mem_range] at hmem
      obtain ⟨i, -, hidx⟩ := hmem
      have hlt : idx < bs.length := by
        rw [← hidx]
        exact Nat.mod_lt _ (Nat.pos_of_ne_zero hlen)
      rw [healthyAt_eq_true bs idx hlt] at hp
      exact ⟨hlt, hp⟩
  · intro hc hnone b hb
    by_cases hlen : bs.length = 0
    · rw [List.length_eq_zero] at hlen
      subst hlen
      exact absurd hb (by simp)
    · unfold selectBackend at hnone
      rw [if_neg hlen, selectLoop_fst] at hnone
      have hall := List.find?_eq_none.mp hnone
      obtain ⟨⟨j, hj⟩, hbj⟩ := List.mem_iff_get.mp hb
      have hjmem := probeSeq_complete c bs.length j
        (Nat.pos_of_ne_zero hlen) hj hc
      have hnh := hall j hjmem
      rw [healthyAt_eq_true bs j hj, hbj] at hnh
      simpa using hnh

/-- Witness for the amended C2: a single unhealthy backend at cursor 5
yields `none`, and since `5 + 1 < 2^32` the converse direction applies
to conclude every backend is unhealthy. -/
theorem select_none_iff_witness :
    (selectBackend oneUnhealthy 5).1 = none ∧
      (∀ b ∈ oneUnhealthy, b.Healthy = false) :=
  ⟨(select_none_iff_all_unhealthy oneUnhealthy 5).1 (by decide),
    (select_none_iff_all_unhealthy oneUnhealthy 5).2.2 (by decide)
      (by decide)⟩

/-- Counterexample to claim C3 as stated: with three backends and the
cursor at `2^32 - 2`, the three successive cursor values taken modulo 3
are 0, 0, 1 — not pairwise distinct — because `2^32` is not a multiple
of 3, so the probed indices repeat and one backend is never tried. -/
theorem selector_duplicate_probe_at_wrap :
    probeSeq 4294967294 wrapBackends.length wrapBackends.length
        = [0, 0, 1] ∧
      ¬ (probeSeq 4294967294 wrapBackends.length
          wrapBackends.length).Nodup := by
  constructor
  · decide
  · decide

/-- Claim C3 amended: a `selectBackend` call makes at most
`len(backends)` attempts — its probes are exactly the first elements of
the length-n list of successive wrapped cursor values modulo n — and
those n indices are pairwise distinct provided the n cursor increments
do not cross the `uint32` wrap boundary (`cursor + n < 2^32`); when they
do cross it and n does not divide `2^32`, an index can repeat. -/
theorem selector_attempts_bound_and_distinct (bs : List Backend)
    (c : Nat) :
    (probeSeq c bs.length bs.length).length = bs.length ∧
      (selectLoop bs c bs.length).1 =
        (probeSeq c bs.length bs.length).find?
          (fun i => healthyAt bs i) ∧
      (c + bs.length < uint32Mod →
        (probeSeq c bs.length bs.length).Nodup) := by
  refine ⟨by simp [probeSeq], selectLoop_fst bs bs.length c, ?_⟩
  intro hc
  rw [probeSeq_nowrap c bs.length hc]
  by_cases hlen : bs.length = 0
  · rw [hlen]
    exact List.nodup_nil
  · refine List.Nodup.map_on ?_ (List.nodup_range _)
    intro x hx y hy hxy
    have hxn := List.mem_range.mp hx
    have hyn := List.mem_range.mp hy
    have hx' : (c + x + 1) = (c + 1) + x := by omega
    have hy' : (c + y + 1) = (c + 1) + y := by omega
    rw [hx', hy'] at hxy
    have hme : Nat.ModEq bs.length x y :=
      Nat.ModEq.add_left_cancel' (c + 1) hxy
    have : x % bs.length = y % bs.length := hme
    rwa [Nat.mod_eq_of_lt hxn, Nat.mod_eq_of_lt hyn] at this

/-- Witness for the amended C3: two backends at cursor 0, far from the
wrap boundary, probe two distinct indices. -/
theorem selector_attempts_witness :
    (probeSeq 0 twoHealthy.length twoHealthy.length).Nodup :=
  (selector_attempts_bound_and_distinct twoHealthy 0).2.2 (by decide)

/-- Counterexample to claim C4 as stated: 100 sequential selections over
two healthy backends starting from the initial cursor 0 do not follow
the order B1, B2, B1, B2, … — the cursor is incremented before the
modulo, so the very first request goes to `backends[1]`. -/
theorem alternation_does_not_start_at_first :
    selectSeq twoHealthy 0 100 ≠
      (List.range 100).map (fun i => some (i % 2)) := by
  decide

/-- Claim C4 amended: with two healthy backends and health checking
disabled, 100 sequential requests are forwarded in strict alternating
order with no skips, starting with the second configured backend:
B2, B1, B2, B1, … (request i goes to `backends[(i+1) % 2]`). -/
theorem alternation_starts_at_second :
    selectSeq twoHealthy 0 100 =
      (List.range 100).map (fun i => some ((i + 1) % 2)) := by
  decide

/-! Dispatcher (`handleQuery` of lb/loadbalancer.go lines 159-202),
restricted to the sequential effect of one request on the load-balancer
state: select a backend; if none and the fail behavior is "closed", drop
the request; if none otherwise (fail-open), fall back to `backends[0]`
when it exists; then forward and relay the reply (or nothing on a
forward error). -/

/-- The `LoadBalancer` fields one request interacts with: the ordered
backend list, the shared cursor, and the configured fail behavior
("closed" or "open", compared as strings exactly as the source does). -/
structure LBState where
  backends : List Backend
  currentIndex : Nat
  failBehavior : String
  deriving DecidableEq

/-- `handleQuery`: the returned state carries the advanced cursor and
the updated target backend (its counters mutated by `ForwardQuery`); the
returned option is the reply written back to the client, `none` when the
request is dropped or the forward fails. -/
def handleQuery (st : LBState) (net : NetOutcome) :
    LBState × Option (List Nat) :=
  let sel := selectBackend st.backends st.currentIndex
  let st1 : LBState := { st with currentIndex := sel.2 }
  let target : Option Nat :=
    match sel.1 with
    | some idx => some idx
    | none =>
      if st.failBehavior = "closed" then none
      else if 0 < st.backends.length then some 0 else none
  match target with
  | none => (st1, none)
  | some idx =>
    match st1.backends.get? idx with
    | none => (st1, none)
    | some b =>
      let r := ForwardQuery b net
      ({ st1 with backends := st1.backends.set idx r.1 }, r.2)

/-- Claim C6: when the selector reports no healthy backend, a "closed"
fail behavior drops the request — no reply is sent and the backend list
(hence every `TotalQueries` counter) is untouched — while an "open" fail
behavior attempts the forward against `backends[0]`, whose
`TotalQueries` increments by one, the reply being exactly what the
forward produced (no synthesized error reply in either case). -/
theorem handleQuery_no_healthy (st : LBState) (net : NetOutcome)
    (hnone : (selectBackend st.backends st.currentIndex).1 = none) :
    (st.failBehavior = "closed" →
        (handleQuery st net).2 = none ∧
          (handleQuery st net).1.backends = st.backends) ∧
      (st.failBehavior = "open" → ∀ b rest, st.backends = b :: rest →
        (handleQuery st net).2 = (ForwardQuery b net).2 ∧
          (handleQuery st net).1.backends.get? 0 =
            some (ForwardQuery b net).1 ∧
          ((ForwardQuery b net).1).TotalQueries = b.TotalQueries + 1) := by
  constructor
  · intro hclosed
    simp only [handleQuery, hnone, hclosed]
    exact ⟨rfl, rfl⟩
  · intro hopen b rest hbs
    have hne : ¬ (st.failBehavior = "closed") := by
      rw [hopen]
      decide
    have hq : (ForwardQuery b net).1.TotalQueries = b.TotalQueries + 1 :=
      forwardQuery_totalQueries b net
    rw [hbs] at hnone
    simp only [handleQuery, hbs, hnone, if_neg hne, List.length_cons,
      Nat.zero_lt_succ, if_pos]
    exact ⟨rfl, rfl, hq⟩

/-- Witness for C6: a closed-policy state with one unhealthy backend at
cursor 0 drops the request and leaves the backend list untouched. -/
theorem handleQuery_no_healthy_witness :
    (selectBackend oneUnhealthy 0).1 = none ∧
      (handleQuery ⟨oneUnhealthy, 0, "closed"⟩ NetOutcome.dialErr).2
          = none ∧
      (handleQuery ⟨oneUnhealthy, 0, "closed"⟩
          NetOutcome.dialErr).1.backends = oneUnhealthy :=
  ⟨by decide,
    (handleQuery_no_healthy ⟨oneUnhealthy, 0, "closed"⟩
      NetOutcome.dialErr (by decide)).1 rfl⟩

end DnsBalancer
